import Mathlib

/-!
Shallow embedding of the RPC endpoint layer of a proof-of-work full node
(`src/rpc/rpc_impl.rs`): block-template construction (difficulty retarget,
cumulative weight, mempool filtering, coinbase reward), bounded range
queries, transaction submission, peer connection, and mining-pool share
accounting.  Machine integers are modelled as `Nat`/`Int`, with explicit
`% 2 ^ 64` or saturation where the source performs wrapping or saturating
machine arithmetic.  Fallible collaborator calls are modelled with
`Except`; a process-aborting panic is modelled as the `none` case of an
`Option`-valued result.
-/

/-- Mirror of the `RpcError` enum of `rpc_impl.rs`; every variant carries a
human-readable message, as in the source. -/
inductive RpcError where
  | anyhowError : String → RpcError
  | crate : String → String → RpcError
  | fromHexError : String → RpcError
  | message : String → RpcError
  | parseIntError : String → RpcError
  | serdeJson : String → RpcError
  | stdIOError : String → RpcError
deriving DecidableEq, Repr

/-- Block header: the fields of `BlockHeader` that this RPC layer reads
(height, timestamp, difficulty target, cumulative weight). -/
structure BlockHeaderM where
  height : Nat
  timestamp : Int
  difficultyTarget : Nat
  cumulativeWeight : Nat
deriving DecidableEq, Repr

/-- A block as seen by this layer: its header and its hash.
`Block::cumulative_weight()` reads the header field. -/
structure BlockM where
  header : BlockHeaderM
  hash : Nat
deriving DecidableEq, Repr

/-- `Block::cumulative_weight()`. -/
def BlockM.cumulativeWeight (b : BlockM) : Nat :=
  b.header.cumulativeWeight

/-- A transaction as seen by this layer: its serial numbers (spent inputs),
commitments (new outputs), signed value balance (`AleoAmount`, an `i64`
modelled as `Int`), transaction id, and its `to_string` encoding. -/
structure TransactionM where
  serialNumbers : List Nat
  commitments : List Nat
  valueBalance : Int
  txid : Nat
  str : String
deriving DecidableEq, Repr

/-- The read-only ledger view (`LedgerReader`).  Point lookups return
`Except`, mirroring the `Result`-returning storage calls of the source. -/
structure Ledger where
  latestBlock : BlockM
  latestBlockHeight : Nat
  latestLedgerRoot : Nat
  getBlockHeader : Nat → Except String BlockHeaderM
  getBlock : Nat → Except String BlockM
  getBlockHash : Nat → Except String Nat
  containsSerialNumber : Nat → Except String Bool
  containsCommitment : Nat → Except String Bool

/-- Static network parameters and the external snarkVM collaborators that
`get_block_template` consumes: the network id, the `V12_UPGRADE_BLOCK_HEIGHT`
anchor constant, the genesis block header, the external
`Blocks::compute_difficulty_target` function (header, timestamp, height)
and the external `Block::block_reward` emission schedule. -/
structure Network where
  networkId : Nat
  v12UpgradeBlockHeight : Nat
  genesisHeader : BlockHeaderM
  retarget : BlockHeaderM → Int → Nat → Nat
  blockReward : Nat → Int

/-- The candidate block template assembled by `get_block_template`
(the fields of the JSON document it returns). -/
structure BlockTemplate where
  previousBlockHash : Nat
  blockHeight : Nat
  time : Int
  difficultyTarget : Nat
  cumulativeWeight : Nat
  ledgerRoot : Nat
  transactions : List String
  coinbaseReward : Int
deriving DecidableEq, Repr

def u64MAX : Nat := 2 ^ 64 - 1

def u128MAX : Nat := 2 ^ 128 - 1

/-- The difficulty-target branch of `get_block_template` (lines 207-214):
on network 2 at or below the upgrade anchor height, retarget from the
current tip header; on network 2 past the anchor, retarget from the anchor
block header fetched at the fixed anchor height (a failed fetch propagates
with `?`); on any other network, retarget from the genesis block header. -/
def difficultyTargetOf (N : Network) (L : Ledger) (ts : Int) : Except RpcError Nat :=
  let blockHeight := L.latestBlockHeight + 1
  if N.networkId = 2 ∧ blockHeight ≤ N.v12UpgradeBlockHeight then
    .ok (N.retarget L.latestBlock.header ts blockHeight)
  else if N.networkId = 2 then
    match L.getBlockHeader N.v12UpgradeBlockHeight with
    | .error e => .error (.anyhowError e)
    | .ok anchorBlockHeader => .ok (N.retarget anchorBlockHeader ts blockHeight)
  else
    .ok (N.retarget N.genesisHeader ts blockHeight)

/-- The mempool filter predicate of `get_block_template` (lines 232-247):
a transaction is dropped when some serial number lookup returns `Ok(true)`
or some commitment lookup returns `Ok(true)`; an `Err` result or `Ok(false)`
does not drop it. -/
def txConflicts (L : Ledger) (t : TransactionM) : Bool :=
  (t.serialNumbers.any fun sn =>
    match L.containsSerialNumber sn with
    | .ok true => true
    | _ => false) ||
  (t.commitments.any fun cm =>
    match L.containsCommitment cm with
    | .ok true => true
    | _ => false)

/-- The transactions retained by the mempool filter, in mempool order. -/
def mempoolInclude (L : Ledger) (pool : List TransactionM) : List TransactionM :=
  pool.filter fun t => ! txConflicts L t

/-- The running `transaction_fees` total: the value balances of the retained
transactions accumulated left to right (`AleoAmount` addition on `Int`). -/
def mempoolFees (L : Ledger) (pool : List TransactionM) : Int :=
  (mempoolInclude L pool).foldl (fun f t => f + t.valueBalance) 0

/-- `get_block_template` (lines 196-269).  The mempool snapshot `pool` is the
`transactions()` list of the memory pool and `ts` the wall-clock timestamp.
The result is `none` when the cumulative-weight step divides by a zero
difficulty target (a Rust division-by-zero panic); otherwise `some` of the
call's `Result`.  Cumulative weight uses `saturating_add` on `u128`. -/
def get_block_template (N : Network) (L : Ledger) (pool : List TransactionM)
    (ts : Int) : Option (Except RpcError BlockTemplate) :=
  let latestBlock := L.latestBlock
  let ledgerRoot := L.latestLedgerRoot
  let previousBlockHash := latestBlock.hash
  let blockHeight := L.latestBlockHeight + 1
  match difficultyTargetOf N L ts with
  | .error e => some (.error e)
  | .ok difficultyTarget =>
    if difficultyTarget = 0 then
      none
    else
      let cumulativeWeight :=
        min (latestBlock.cumulativeWeight + u64MAX / difficultyTarget) u128MAX
      let transactions := (mempoolInclude L pool).map (·.str)
      let transactionFees := mempoolFees L pool
      if transactionFees < 0 then
        some (.error (.message "Invalid transaction fees"))
      else
        some (.ok {
          previousBlockHash := previousBlockHash
          blockHeight := blockHeight
          time := ts
          difficultyTarget := difficultyTarget
          cumulativeWeight := cumulativeWeight
          ledgerRoot := ledgerRoot
          transactions := transactions
          coinbaseReward := N.blockReward blockHeight + transactionFees })

/-- Collect `get h` over the `n` consecutive heights starting at `s`,
short-circuiting on the first failure, as a `collect()` over a
`Result`-valued height range does. -/
def exceptRange {α : Type} (get : Nat → Except String α) (s : Nat) :
    Nat → Except String (List α)
  | 0 => .ok []
  | n + 1 =>
    match get s, exceptRange get (s + 1) n with
    | .error e, _ => .error e
    | .ok _, .error e => .error e
    | .ok b, .ok bs => .ok (b :: bs)

/-- Modelled from the spec: the `LedgerReader::get_blocks` collaborator is not
part of this crate; per the spec's LedgerView contract it returns the block at
each height from `s` to `e` inclusive (an empty span when `s > e`), and fails
if any requested height is unknown. -/
def ledgerGetBlocks (L : Ledger) (s e : Nat) : Except String (List BlockM) :=
  exceptRange L.getBlock s (e + 1 - s)

/-- Modelled from the spec: the `LedgerReader::get_block_hashes` collaborator,
returning the block hash at each height from `s` to `e` inclusive, failing if
any requested height is unknown. -/
def ledgerGetBlockHashes (L : Ledger) (s e : Nat) : Except String (List Nat) :=
  exceptRange L.getBlockHash s (e + 1 - s)

/-- `get_blocks` (lines 168-171): advance the start height to
`max(start, end.saturating_sub(W - 1))` (`W` is `E::MAXIMUM_BLOCK_REQUEST`)
and delegate to the ledger range query. -/
def get_blocks (W : Nat) (L : Ledger) (startH endH : Nat) :
    Except String (List BlockM) :=
  ledgerGetBlocks L (max startH (endH - (W - 1))) endH

/-- `get_block_hashes` (lines 185-188): same window policy, over hashes. -/
def get_block_hashes (W : Nat) (L : Ledger) (startH endH : Nat) :
    Except String (List Nat) :=
  ledgerGetBlockHashes L (max startH (endH - (W - 1))) endH

/-- A message to the prover mailbox: `ProverRequest::UnconfirmedTransaction`
carries a source socket address and the transaction. -/
inductive ProverRequest where
  | unconfirmedTransaction : String → TransactionM → ProverRequest
deriving DecidableEq, Repr

/-- `send_transaction` (lines 345-353).  `hexDecode` is the external
`hex::decode`, `fromBytesTx` the external `Transaction::from_bytes_le`, and
`proverSend` the outcome of the prover mailbox send.  The result pairs the
call's `Result` with the list of messages the prover mailbox received: a
decode failure returns before any dispatch, and a failed dispatch is only
logged, never surfaced. -/
def send_transaction (hexDecode : String → Except String (List Nat))
    (fromBytesTx : List Nat → Except String TransactionM)
    (proverSend : ProverRequest → Except String Unit)
    (transactionHex : String) : Except RpcError Nat × List ProverRequest :=
  match hexDecode transactionHex with
  | .error e => (.error (.fromHexError e), [])
  | .ok bytes =>
    match fromBytesTx bytes with
    | .error e => (.error (.stdIOError e), [])
    | .ok transaction =>
      let request := ProverRequest.unconfirmedTransaction "0.0.0.0:3032" transaction
      match proverSend request with
      | .ok _ => (.ok transaction.txid, [request])
      | .error _ => (.ok transaction.txid, [])

/-- `connect` (lines 355-383).  `parseAddr` is the external socket-address
parser applied to each supplied peer value, and `peersSend` the outcome of the
peers-router send for a parsed address.  A parse failure `panic!`s, aborting
the whole process, modelled as `none`; otherwise the call returns `some` of
the pair of its `Ok(true)` result and the addresses whose `Connect` request
the peers mailbox received (a failed send is only logged). -/
def connect (parseAddr : String → Except String String)
    (peersSend : String → Except String Unit) :
    List String → Option (Bool × List String)
  | [] => some (true, [])
  | peerIp :: rest =>
    match parseAddr peerIp with
    | .error _ => none
    | .ok addr =>
      let delivered :=
        match peersSend addr with
        | .ok _ => [addr]
        | .error _ => []
      match connect parseAddr peersSend rest with
      | none => none
      | some (b, ds) => some (b, delivered ++ ds)

/-- `get_shares` (lines 390-397) over the operator's share map, given as the
list of rounds paired with their per-prover share counts.  The per-round sum
and the running total are `u64` machine additions, modelled with an explicit
`% 2 ^ 64`. -/
def get_shares (shares : List (Nat × List (Nat × Nat))) : Nat :=
  shares.foldl
    (fun res rs =>
      (res + rs.2.foldl (fun s pc => (s + pc.2) % 2 ^ 64) 0) % 2 ^ 64)
    0

/-- Specification-side reading of "recorded as spent": the ledger's serial
number containment query answers `Ok(true)`. -/
def specRecordedSpent (L : Ledger) (sn : Nat) : Prop :=
  L.containsSerialNumber sn = .ok true

/-- Specification-side reading of "recorded as an existing output": the
ledger's commitment containment query answers `Ok(true)`. -/
def specRecordedOutput (L : Ledger) (cm : Nat) : Prop :=
  L.containsCommitment cm = .ok true

/-- Specification-side admissibility of a mempool transaction, stated from the
spec's words for the refinement claim about the included set: no serial
number already recorded as spent, no commitment already recorded as an
existing output. -/
def specAdmissible (L : Ledger) (t : TransactionM) : Prop :=
  (∀ sn ∈ t.serialNumbers, ¬ specRecordedSpent L sn) ∧
  (∀ cm ∈ t.commitments, ¬ specRecordedOutput L cm)

deriving instance DecidableEq for Except

instance (L : Ledger) (t : TransactionM) : Decidable (specAdmissible L t) := by
  unfold specAdmissible specRecordedSpent specRecordedOutput
  exact instDecidableAnd

/-- The flat total of a share map: the sum over all rounds and provers of the
credited counts, in unbounded arithmetic. -/
def flatShareTotal (shares : List (Nat × List (Nat × Nat))) : Nat :=
  (shares.map fun rs => (rs.2.map fun pc => pc.2).sum).sum

theorem conflictProbe_not_true {r : Except String Bool} :
    ¬ ((match r with | .ok true => true | _ => false) = true) ↔ r ≠ .ok true := by
  rcases r with e | b
  · simp
  · rcases b <;> simp

theorem txConflicts_eq_false_iff (L : Ledger) (t : TransactionM) :
    txConflicts L t = false ↔ specAdmissible L t := by
  unfold txConflicts specAdmissible specRecordedSpent specRecordedOutput
  rw [Bool.or_eq_false_iff, List.any_eq_false, List.any_eq_false]
  constructor
  · rintro ⟨hs, hc⟩
    exact ⟨fun sn hsn => conflictProbe_not_true.mp (hs sn hsn),
           fun cm hcm => conflictProbe_not_true.mp (hc cm hcm)⟩
  · rintro ⟨hs, hc⟩
    exact ⟨fun sn hsn => conflictProbe_not_true.mpr (hs sn hsn),
           fun cm hcm => conflictProbe_not_true.mpr (hc cm hcm)⟩

theorem mempoolInclude_eq_specFilter (L : Ledger) (pool : List TransactionM) :
    mempoolInclude L pool = pool.filter fun t => decide (specAdmissible L t) := by
  unfold mempoolInclude
  apply List.filter_congr
  intro t _
  rcases h : txConflicts L t with _ | _
  · simp [h, decide_eq_true ((txConflicts_eq_false_iff L t).mp h)]
  · have hna : ¬ specAdmissible L t := by
      intro hadm
      rw [(txConflicts_eq_false_iff L t).mpr hadm] at h
      exact Bool.noConfusion h
    simp [h, hna]

theorem foldl_add_valueBalance (l : List TransactionM) (i : Int) :
    l.foldl (fun f t => f + t.valueBalance) i = i + (l.map (·.valueBalance)).sum := by
  induction l generalizing i with
  | nil => simp
  | cons t l ih =>
    rw [List.foldl_cons, ih, List.map_cons, List.sum_cons]
    ring

theorem mempoolFees_eq_sum (L : Ledger) (pool : List TransactionM) :
    mempoolFees L pool = ((mempoolInclude L pool).map (·.valueBalance)).sum := by
  unfold mempoolFees
  rw [foldl_add_valueBalance]
  ring

theorem exceptRange_ok_spec {α : Type} (get : Nat → Except String α) :
    ∀ (n s : Nat) (l : List α), exceptRange get s n = .ok l →
      l.length = n ∧ ∀ i, ∀ (h : i < l.length), get (s + i) = .ok (l.get ⟨i, h⟩) := by
  intro n
  induction n with
  | zero =>
    intro s l hl
    unfold exceptRange at hl
    injection hl with hl
    subst hl
    exact ⟨rfl, fun i h => absurd h (Nat.not_lt_zero i)⟩
  | succ n ih =>
    intro s l hl
    unfold exceptRange at hl
    rcases hg : get s with e | b <;> rw [hg] at hl
    · exact absurd hl (by simp)
    rcases hr : exceptRange get (s + 1) n with e | bs <;> rw [hr] at hl
    · exact absurd hl (by simp)
    injection hl with hl
    subst hl
    obtain ⟨hlen, hget⟩ := ih (s + 1) bs hr
    refine ⟨by simp [hlen], ?_⟩
    intro i h
    match i with
    | 0 => simpa using hg
    | j + 1 =>
      have hj : j < bs.length := by simpa using h
      have := hget j hj
      rw [show s + (j + 1) = s + 1 + j from by omega]
      simpa using this

theorem exceptRange_window {α : Type} (get : Nat → Except String α)
    (W startH endH : Nat) (hW : 1 ≤ W) (hse : startH ≤ endH) (l : List α)
    (hok : exceptRange get (max startH (endH - (W - 1)))
        (endH + 1 - max startH (endH - (W - 1))) = .ok l) :
    l.length ≤ W ∧ ∃ b, get endH = .ok b ∧ l.getLast? = some b := by
  set s := max startH (endH - (W - 1)) with hs
  obtain ⟨hlen, hget⟩ := exceptRange_ok_spec get (endH + 1 - s) s l hok
  have h1 : endH - (W - 1) ≤ s := le_max_right _ _
  have hsle : s ≤ endH := max_le hse (Nat.sub_le _ _)
  constructor
  · omega
  · have hpos : 0 < l.length := by omega
    have hne : l ≠ [] := List.length_pos.mp hpos
    have hidx : l.length - 1 < l.length := by omega
    have hlastv := hget (l.length - 1) hidx
    rw [show s + (l.length - 1) = endH from by omega] at hlastv
    refine ⟨l.get ⟨l.length - 1, hidx⟩, hlastv, ?_⟩
    rw [List.getLast?_eq_getLast_of_ne_nil hne, List.getLast_eq_getElem]
    simp [List.get_eq_getElem]

theorem window_no_narrowing (W startH endH : Nat) (hse : startH ≤ endH)
    (hfits : endH + 1 - startH ≤ W) :
    max startH (endH - (W - 1)) = startH := by
  omega

theorem foldl_mod_add_of_lt {α : Type} (f : α → Nat) :
    ∀ (l : List α) (i : Nat), i + (l.map f).sum < 2 ^ 64 →
      l.foldl (fun s x => (s + f x) % 2 ^ 64) i = i + (l.map f).sum := by
  intro l
  induction l with
  | nil => intro i _; simp
  | cons x l ih =>
    intro i hlt
    rw [List.map_cons, List.sum_cons] at hlt ⊢
    rw [List.foldl_cons]
    have hx : (i + f x) % 2 ^ 64 = i + f x := Nat.mod_eq_of_lt (by omega)
    rw [hx, ih (i + f x) (by omega)]
    omega

theorem get_shares_eq_of_fits (shares : List (Nat × List (Nat × Nat)))
    (hfits : flatShareTotal shares < 2 ^ 64) :
    get_shares shares = flatShareTotal shares := by
  unfold get_shares flatShareTotal
  unfold flatShareTotal at hfits
  have main : ∀ (l : List (Nat × List (Nat × Nat))) (i : Nat),
      i + (l.map fun rs => (rs.2.map fun pc => pc.2).sum).sum < 2 ^ 64 →
      l.foldl (fun res rs =>
          (res + rs.2.foldl (fun s pc => (s + pc.2) % 2 ^ 64) 0) % 2 ^ 64) i =
        i + (l.map fun rs => (rs.2.map fun pc => pc.2).sum).sum := by
    intro l
    induction l with
    | nil => intro i _; simp
    | cons rs l ih =>
      intro i hlt
      rw [List.map_cons, List.sum_cons] at hlt ⊢
      rw [List.foldl_cons]
      have hinner : rs.2.foldl (fun s pc => (s + pc.2) % 2 ^ 64) 0 =
          (rs.2.map fun pc => pc.2).sum := by
        have := foldl_mod_add_of_lt (fun pc : Nat × Nat => pc.2) rs.2 0 (by omega)
        simpa using this
      rw [hinner]
      have hstep : (i + (rs.2.map fun pc => pc.2).sum) % 2 ^ 64 =
          i + (rs.2.map fun pc => pc.2).sum := Nat.mod_eq_of_lt (by omega)
      rw [hstep, ih _ (by omega)]
      omega
  simpa using main shares 0 (by omega)

theorem get_block_template_unfold (N : Network) (L : Ledger) (pool : List TransactionM)
    (ts : Int) :
    get_block_template N L pool ts =
      match difficultyTargetOf N L ts with
      | .error e => some (.error e)
      | .ok dt =>
        if dt = 0 then none
        else if mempoolFees L pool < 0 then
          some (.error (.message "Invalid transaction fees"))
        else
          some (.ok {
            previousBlockHash := L.latestBlock.hash
            blockHeight := L.latestBlockHeight + 1
            time := ts
            difficultyTarget := dt
            cumulativeWeight :=
              min (L.latestBlock.cumulativeWeight + u64MAX / dt) u128MAX
            ledgerRoot := L.latestLedgerRoot
            transactions := (mempoolInclude L pool).map (·.str)
            coinbaseReward :=
              N.blockReward (L.latestBlockHeight + 1) + mempoolFees L pool }) := rfl

theorem get_block_template_ok_inv (N : Network) (L : Ledger) (pool : List TransactionM)
    (ts : Int) (tpl : BlockTemplate)
    (h : get_block_template N L pool ts = some (.ok tpl)) :
    difficultyTargetOf N L ts = .ok tpl.difficultyTarget ∧
    tpl.difficultyTarget ≠ 0 ∧ ¬ mempoolFees L pool < 0 ∧
    tpl = { previousBlockHash := L.latestBlock.hash
            blockHeight := L.latestBlockHeight + 1
            time := ts
            difficultyTarget := tpl.difficultyTarget
            cumulativeWeight :=
              min (L.latestBlock.cumulativeWeight + u64MAX / tpl.difficultyTarget) u128MAX
            ledgerRoot := L.latestLedgerRoot
            transactions := (mempoolInclude L pool).map (·.str)
            coinbaseReward :=
              N.blockReward (L.latestBlockHeight + 1) + mempoolFees L pool } := by
  rw [get_block_template_unfold] at h
  rcases hdt : difficultyTargetOf N L ts with e | dt <;> simp only [hdt] at h
  · simp at h
  · by_cases hz : dt = 0
    · rw [if_pos hz] at h
      simp at h
    · rw [if_neg hz] at h
      by_cases hneg : mempoolFees L pool < 0
      · rw [if_pos hneg] at h
        simp at h
      · rw [if_neg hneg] at h
        injection h with h
        injection h with h
        subst h
        exact ⟨rfl, hz, hneg, rfl⟩

def c1GenesisHeader : BlockHeaderM :=
  { height := 0, timestamp := 0, difficultyTarget := 3, cumulativeWeight := 0 }

def c1TipHeader : BlockHeaderM :=
  { height := 10, timestamp := 100, difficultyTarget := 5, cumulativeWeight := 7 }

/-- Fixture network for claim C1: network id 1 (not the upgraded network 2),
with a retarget function that reads the reference header's difficulty target,
so the reference header used by the code is observable in the output. -/
def c1Network : Network :=
  { networkId := 1
    v12UpgradeBlockHeight := 100
    genesisHeader := c1GenesisHeader
    retarget := fun hdr _ _ => hdr.difficultyTarget
    blockReward := fun _ => 100 }

def c1Ledger : Ledger :=
  { latestBlock := { header := c1TipHeader, hash := 42 }
    latestBlockHeight := 10
    latestLedgerRoot := 9
    getBlockHeader := fun _ => .error "block header not found"
    getBlock := fun _ => .error "block not found"
    getBlockHash := fun _ => .error "block hash not found"
    containsSerialNumber := fun _ => .ok false
    containsCommitment := fun _ => .ok false }

/-- Claim C1 counterexample: on network 1 (a network on its original rule
set), with next height 11 at or before the anchor height 100, the template's
difficulty target is 3, computed from the genesis header under the fixture
retarget, while the sliding-window retarget from the current tip header would
give 5 — so the claim's tip-header branch does not hold of the code. -/
theorem c1_counterexample :
    (get_block_template c1Network c1Ledger [] 0).map
        (Except.map (·.difficultyTarget)) = some (.ok 3) ∧
    c1Network.retarget c1Ledger.latestBlock.header 0
        (c1Ledger.latestBlockHeight + 1) = 5 ∧
    (3 : Nat) ≠ 5 :=
  ⟨rfl, rfl, by decide⟩

/-- Claim C1 (amended): the difficulty target of get_block_template at next
height H is computed by the retarget function applied to: the current tip
header when the network is network 2 and H is at or before the upgrade anchor
height; the anchor block header, fetched at the fixed anchor height and hence
independent of H as it advances, when the network is network 2 and H is past
the anchor height; and the genesis block header — not the current tip header
— on any other network. -/
theorem c1_retarget_reference (N : Network) (L : Ledger) (ts : Int) :
    (∀ pool tpl, get_block_template N L pool ts = some (.ok tpl) →
        difficultyTargetOf N L ts = .ok tpl.difficultyTarget) ∧
    (N.networkId = 2 → L.latestBlockHeight + 1 ≤ N.v12UpgradeBlockHeight →
        difficultyTargetOf N L ts =
          .ok (N.retarget L.latestBlock.header ts (L.latestBlockHeight + 1))) ∧
    (N.networkId = 2 → N.v12UpgradeBlockHeight < L.latestBlockHeight + 1 →
        ∀ anchorHeader, L.getBlockHeader N.v12UpgradeBlockHeight = .ok anchorHeader →
          difficultyTargetOf N L ts =
            .ok (N.retarget anchorHeader ts (L.latestBlockHeight + 1))) ∧
    (N.networkId ≠ 2 →
        difficultyTargetOf N L ts =
          .ok (N.retarget N.genesisHeader ts (L.latestBlockHeight + 1))) := by
  refine ⟨fun pool tpl h => (get_block_template_ok_inv N L pool ts tpl h).1, ?_, ?_, ?_⟩
  · intro h2 hle
    simp [difficultyTargetOf, h2, hle]
  · intro h2 hlt anchorHeader hfetch
    simp [difficultyTargetOf, h2, Nat.not_le.mpr hlt, hfetch]
  · intro h2
    simp [difficultyTargetOf, h2]

/-- Witness for the amended C1 theorem: on the network-1 fixture the
difficulty target is the retarget of the genesis header. -/
theorem c1_retarget_reference_witness :
    difficultyTargetOf c1Network c1Ledger 0 =
      .ok (c1Network.retarget c1Network.genesisHeader 0
        (c1Ledger.latestBlockHeight + 1)) :=
  (c1_retarget_reference c1Network c1Ledger 0).2.2.2 (by decide)

def fixtureGenesisHeader : BlockHeaderM :=
  { height := 0, timestamp := 0, difficultyTarget := 9, cumulativeWeight := 0 }

def fixtureTipHeader : BlockHeaderM :=
  { height := 10, timestamp := 50, difficultyTarget := 8, cumulativeWeight := 1000 }

/-- Shared concrete fixture network: network id 1, difficulty target 1,
block reward 100 at every height. -/
def fixtureNetwork : Network :=
  { networkId := 1
    v12UpgradeBlockHeight := 100
    genesisHeader := fixtureGenesisHeader
    retarget := fun _ _ _ => 1
    blockReward := fun _ => 100 }

/-- Shared concrete fixture ledger at tip height 10, where exactly serial
number 2 is recorded as spent and no commitment is recorded. -/
def fixtureLedger : Ledger :=
  { latestBlock := { header := fixtureTipHeader, hash := 42 }
    latestBlockHeight := 10
    latestLedgerRoot := 9
    getBlockHeader := fun _ => .error "block header not found"
    getBlock := fun _ => .error "block not found"
    getBlockHash := fun _ => .error "block hash not found"
    containsSerialNumber := fun sn => .ok (decide (sn = 2))
    containsCommitment := fun _ => .ok false }

/-- Claim C2: a produced template includes exactly those mempool transactions,
in mempool order, with no serial number recorded as spent and no commitment
recorded as an existing output, and its coinbase reward equals the fixed
issuance at the next height plus the sum of the value balances of the
included transactions. -/
theorem c2_template_inclusion_and_coinbase (N : Network) (L : Ledger)
    (pool : List TransactionM) (ts : Int) (tpl : BlockTemplate)
    (h : get_block_template N L pool ts = some (.ok tpl)) :
    tpl.transactions =
      ((pool.filter fun t => decide (specAdmissible L t)).map (·.str)) ∧
    tpl.coinbaseReward = N.blockReward (L.latestBlockHeight + 1) +
      ((pool.filter fun t => decide (specAdmissible L t)).map (·.valueBalance)).sum := by
  obtain ⟨-, -, -, htpl⟩ := get_block_template_ok_inv N L pool ts tpl h
  rw [htpl]
  constructor
  · show (mempoolInclude L pool).map (·.str) = _
    rw [mempoolInclude_eq_specFilter]
  · show N.blockReward (L.latestBlockHeight + 1) + mempoolFees L pool = _
    rw [mempoolFees_eq_sum, mempoolInclude_eq_specFilter]

def c2TxGood : TransactionM :=
  { serialNumbers := [1], commitments := [10], valueBalance := 5, txid := 100, str := "T1" }

def c2TxSpent : TransactionM :=
  { serialNumbers := [2], commitments := [11], valueBalance := 3, txid := 101, str := "T2" }

/-- The template the fixture produces for the two-transaction mempool:
only T1 is included and the coinbase reward is 100 + 5. -/
def c2Tpl : BlockTemplate :=
  { previousBlockHash := 42
    blockHeight := 11
    time := 0
    difficultyTarget := 1
    cumulativeWeight := 1000 + (2 ^ 64 - 1)
    ledgerRoot := 9
    transactions := ["T1"]
    coinbaseReward := 105 }

/-- Witness for C2 on the concrete fixture mempool {T1 clean, T2 with a spent
serial number}. -/
theorem c2_witness :
    c2Tpl.transactions =
      (([c2TxGood, c2TxSpent].filter fun t =>
        decide (specAdmissible fixtureLedger t)).map (·.str)) ∧
    c2Tpl.coinbaseReward =
      fixtureNetwork.blockReward (fixtureLedger.latestBlockHeight + 1) +
      (([c2TxGood, c2TxSpent].filter fun t =>
        decide (specAdmissible fixtureLedger t)).map (·.valueBalance)).sum :=
  c2_template_inclusion_and_coinbase fixtureNetwork fixtureLedger
    [c2TxGood, c2TxSpent] 0 c2Tpl (by decide)

/-- Claim C3: when the aggregate fee of the included transactions is negative,
get_block_template fails with the validation error and produces no template;
the embedding is a pure function of its arguments, so the failing call has no
side effects. -/
theorem c3_negative_fees_fail (N : Network) (L : Ledger) (pool : List TransactionM)
    (ts : Int) (dt : Nat) (hdt : difficultyTargetOf N L ts = .ok dt) (hz : dt ≠ 0)
    (hneg : mempoolFees L pool < 0) :
    get_block_template N L pool ts =
      some (.error (.message "Invalid transaction fees")) := by
  rw [get_block_template_unfold]
  simp [hdt, hz, hneg]

def c3Tx : TransactionM :=
  { serialNumbers := [3], commitments := [12], valueBalance := -5, txid := 102, str := "T3" }

/-- Witness for C3: a mempool holding one conflict-free transaction with
value balance -5 makes the template build fail with the validation error. -/
theorem c3_witness :
    get_block_template fixtureNetwork fixtureLedger [c3Tx] 0 =
      some (.error (.message "Invalid transaction fees")) :=
  c3_negative_fees_fail fixtureNetwork fixtureLedger [c3Tx] 0 1
    (by decide) (by decide) (by decide)

def c4TipHeader : BlockHeaderM :=
  { height := 10, timestamp := 50, difficultyTarget := 8, cumulativeWeight := 2 ^ 128 - 1 }

/-- Fixture ledger whose tip cumulative weight is already the u128 maximum. -/
def c4Ledger : Ledger :=
  { latestBlock := { header := c4TipHeader, hash := 1 }
    latestBlockHeight := 10
    latestLedgerRoot := 0
    getBlockHeader := fun _ => .error "block header not found"
    getBlock := fun _ => .error "block not found"
    getBlockHash := fun _ => .error "block hash not found"
    containsSerialNumber := fun _ => .ok false
    containsCommitment := fun _ => .ok false }

/-- Claim C4 counterexample: with the tip cumulative weight at the u128
maximum and computed difficulty target 1, the template's cumulative weight
saturates at the u128 maximum instead of equalling
tip weight + floor(u64::MAX / difficulty_target). -/
theorem c4_counterexample :
    (get_block_template fixtureNetwork c4Ledger [] 0).map
        (Except.map (·.cumulativeWeight)) = some (.ok u128MAX) ∧
    c4Ledger.latestBlock.cumulativeWeight + u64MAX / 1 ≠ u128MAX :=
  ⟨rfl, by decide⟩

/-- Claim C4 (amended): the template's cumulative weight is the tip block's
cumulative weight plus floor(u64::MAX / difficulty_target) saturated at the
u128 maximum (the code uses `saturating_add`), hence equals the plain sum
exactly when that sum does not exceed u128::MAX. -/
theorem c4_cumulative_weight (N : Network) (L : Ledger) (pool : List TransactionM)
    (ts : Int) (tpl : BlockTemplate)
    (h : get_block_template N L pool ts = some (.ok tpl)) :
    tpl.cumulativeWeight =
      min (L.latestBlock.cumulativeWeight + u64MAX / tpl.difficultyTarget) u128MAX ∧
    (L.latestBlock.cumulativeWeight + u64MAX / tpl.difficultyTarget ≤ u128MAX →
      tpl.cumulativeWeight =
        L.latestBlock.cumulativeWeight + u64MAX / tpl.difficultyTarget) := by
  obtain ⟨-, -, -, htpl⟩ := get_block_template_ok_inv N L pool ts tpl h
  constructor
  · rw [htpl]
  · intro hle
    rw [htpl]
    exact min_eq_left hle

def c4Tpl : BlockTemplate :=
  { previousBlockHash := 42
    blockHeight := 11
    time := 0
    difficultyTarget := 1
    cumulativeWeight := 1000 + (2 ^ 64 - 1)
    ledgerRoot := 9
    transactions := []
    coinbaseReward := 100 }

/-- Witness for the amended C4 theorem on the shared fixture at difficulty
target 1, where the sum does not saturate. -/
theorem c4_cumulative_weight_witness :
    c4Tpl.cumulativeWeight =
      min (fixtureLedger.latestBlock.cumulativeWeight +
        u64MAX / c4Tpl.difficultyTarget) u128MAX ∧
    c4Tpl.cumulativeWeight =
      fixtureLedger.latestBlock.cumulativeWeight + u64MAX / c4Tpl.difficultyTarget :=
  ⟨(c4_cumulative_weight fixtureNetwork fixtureLedger [] 0 c4Tpl (by decide)).1,
   (c4_cumulative_weight fixtureNetwork fixtureLedger [] 0 c4Tpl (by decide)).2
     (by decide)⟩

/-- Claim C5: for start ≤ end, get_blocks and get_block_hashes return at most
W items ending at end (the effective start is advanced to
max(start, end - (W - 1))), and when the requested span fits inside the
window they are exactly the un-narrowed contiguous ledger range query from
start to end, whose successful results list the entry at each height from
start to end in order. -/
theorem c5_bounded_range_queries (W : Nat) (L : Ledger) (startH endH : Nat)
    (hW : 1 ≤ W) (hse : startH ≤ endH) :
    (∀ l, get_blocks W L startH endH = .ok l →
        l.length ≤ W ∧ ∃ b, L.getBlock endH = .ok b ∧ l.getLast? = some b) ∧
    (endH - startH + 1 ≤ W →
        get_blocks W L startH endH = ledgerGetBlocks L startH endH ∧
        ∀ l, get_blocks W L startH endH = .ok l →
          l.length = endH - startH + 1 ∧
          ∀ i, ∀ (h : i < l.length), L.getBlock (startH + i) = .ok (l.get ⟨i, h⟩)) ∧
    (∀ l, get_block_hashes W L startH endH = .ok l →
        l.length ≤ W ∧ ∃ b, L.getBlockHash endH = .ok b ∧ l.getLast? = some b) ∧
    (endH - startH + 1 ≤ W →
        get_block_hashes W L startH endH = ledgerGetBlockHashes L startH endH) := by
  have hmaxeq : endH - startH + 1 ≤ W → max startH (endH - (W - 1)) = startH :=
    fun hfits => window_no_narrowing W startH endH hse (by omega)
  refine ⟨?_, ?_, ?_, ?_⟩
  · intro l hok
    exact exceptRange_window L.getBlock W startH endH hW hse l hok
  · intro hfits
    have hmax := hmaxeq hfits
    constructor
    · unfold get_blocks ledgerGetBlocks
      rw [hmax]
    · intro l hok
      have hok' : exceptRange L.getBlock startH (endH + 1 - startH) = .ok l := by
        unfold get_blocks ledgerGetBlocks at hok
        rwa [hmax] at hok
      obtain ⟨hlen, hget⟩ :=
        exceptRange_ok_spec L.getBlock (endH + 1 - startH) startH l hok'
      exact ⟨by omega, hget⟩
  · intro l hok
    exact exceptRange_window L.getBlockHash W startH endH hW hse l hok
  · intro hfits
    have hmax := hmaxeq hfits
    unfold get_block_hashes ledgerGetBlockHashes
    rw [hmax]

def c5Block (h : Nat) : BlockM :=
  { header := { height := h, timestamp := 0, difficultyTarget := 1, cumulativeWeight := h }
    hash := h }

/-- Fixture ledger for C5 holding blocks at heights 0 to 20. -/
def c5Ledger : Ledger :=
  { latestBlock := c5Block 20
    latestBlockHeight := 20
    latestLedgerRoot := 0
    getBlockHeader := fun h =>
      if h ≤ 20 then .ok (c5Block h).header else .error "block header not found"
    getBlock := fun h => if h ≤ 20 then .ok (c5Block h) else .error "block not found"
    getBlockHash := fun h => if h ≤ 20 then .ok h else .error "block hash not found"
    containsSerialNumber := fun _ => .ok false
    containsCommitment := fun _ => .ok false }

/-- Witness for C5 with window size 10 over the span 2..4. -/
theorem c5_witness :
    get_blocks 10 c5Ledger 2 4 = ledgerGetBlocks c5Ledger 2 4 ∧
    get_block_hashes 10 c5Ledger 2 4 = ledgerGetBlockHashes c5Ledger 2 4 :=
  ⟨((c5_bounded_range_queries 10 c5Ledger 2 4 (by decide) (by decide)).2.1
      (by decide)).1,
   (c5_bounded_range_queries 10 c5Ledger 2 4 (by decide) (by decide)).2.2.2
      (by decide)⟩

/-- Claim C6: send_transaction with a payload failing hex decoding (or byte
deserialization) returns the decode error synchronously and the prover
mailbox receives no message; with a decodable payload it returns the decoded
transaction's id, whatever the mailbox delivery outcome is. -/
theorem c6_send_transaction (hexDecode : String → Except String (List Nat))
    (fromBytesTx : List Nat → Except String TransactionM)
    (proverSend : ProverRequest → Except String Unit) (transactionHex : String) :
    (∀ e, hexDecode transactionHex = .error e →
      send_transaction hexDecode fromBytesTx proverSend transactionHex =
        (.error (.fromHexError e), [])) ∧
    (∀ bytes e, hexDecode transactionHex = .ok bytes → fromBytesTx bytes = .error e →
      send_transaction hexDecode fromBytesTx proverSend transactionHex =
        (.error (.stdIOError e), [])) ∧
    (∀ bytes tx, hexDecode transactionHex = .ok bytes → fromBytesTx bytes = .ok tx →
      (send_transaction hexDecode fromBytesTx proverSend transactionHex).1 =
        .ok tx.txid) := by
  refine ⟨?_, ?_, ?_⟩
  · intro e he
    unfold send_transaction
    simp [he]
  · intro bytes e hb he
    unfold send_transaction
    simp [hb, he]
  · intro bytes tx hb ht
    unfold send_transaction
    simp only [hb, ht]
    rcases hps : proverSend (ProverRequest.unconfirmedTransaction "0.0.0.0:3032" tx)
      with er | u <;> simp [hps]

def c6Tx : TransactionM :=
  { serialNumbers := [], commitments := [], valueBalance := 0, txid := 77, str := "T" }

def c6HexDecode : String → Except String (List Nat) :=
  fun s => if s = "00" then .ok [0] else .error "Invalid character"

def c6FromBytes : List Nat → Except String TransactionM :=
  fun b => if b = [0] then .ok c6Tx else .error "unexpected end of input"

/-- A prover mailbox double whose send always fails (closed channel). -/
def c6ProverSend : ProverRequest → Except String Unit :=
  fun _ => .error "channel closed"

/-- Witness for C6: malformed hex yields the decode error with zero mailbox
messages, and a well-formed payload yields the transaction id even though
the mailbox send fails. -/
theorem c6_witness :
    send_transaction c6HexDecode c6FromBytes c6ProverSend "zz" =
      (.error (.fromHexError "Invalid character"), []) ∧
    (send_transaction c6HexDecode c6FromBytes c6ProverSend "00").1 =
      .ok c6Tx.txid :=
  ⟨(c6_send_transaction c6HexDecode c6FromBytes c6ProverSend "zz").1
      "Invalid character" (by decide),
   (c6_send_transaction c6HexDecode c6FromBytes c6ProverSend "00").2.2
      [0] c6Tx (by decide) (by decide)⟩

/-- Whether an address parse outcome is a success. -/
def parseOk (r : Except String String) : Bool :=
  match r with
  | .ok _ => true
  | .error _ => false

/-- Claim C7: connect aborts the entire process (the `none` outcome, modelling
the panic) whenever any supplied peer value fails to parse as a socket
address, instead of returning an error for that call; and when every supplied
value parses, it returns true regardless of the per-peer mailbox dispatch
outcomes. -/
theorem c7_connect (parseAddr : String → Except String String)
    (peersSend : String → Except String Unit) (peers : List String) :
    (∀ p e, p ∈ peers → parseAddr p = .error e →
      connect parseAddr peersSend peers = none) ∧
    ((∀ p ∈ peers, parseOk (parseAddr p) = true) →
      (connect parseAddr peersSend peers).map Prod.fst = some true) := by
  induction peers with
  | nil =>
    constructor
    · intro p e hp
      exact absurd hp (List.not_mem_nil p)
    · intro _
      rfl
  | cons q rest ih =>
    constructor
    · intro p e hp hperr
      rcases List.mem_cons.mp hp with rfl | hrest
      · simp [connect, hperr]
      · rcases hq : parseAddr q with eq | aq
        · simp [connect, hq]
        · simp [connect, hq, ih.1 p e hrest hperr]
    · intro hall
      have hq' := hall q (List.mem_cons_self q rest)
      rcases hq : parseAddr q with e | aq
      · rw [hq] at hq'
        exact absurd hq' (by simp [parseOk])
      · have hrest := ih.2 (fun p hp => hall p (List.mem_cons_of_mem q hp))
        rcases hcr : connect parseAddr peersSend rest with _ | pr
        · rw [hcr] at hrest
          simp at hrest
        · rcases pr with ⟨b, ds⟩
          rw [hcr] at hrest
          simp at hrest
          subst hrest
          rcases hsend : peersSend aq with er | u <;>
            simp [connect, hq, hcr, hsend]

def c7Parse : String → Except String String :=
  fun s => if s = "bad" then .error "invalid socket address" else .ok s

/-- A peers mailbox double whose send always fails (closed channel). -/
def c7Send : String → Except String Unit :=
  fun _ => .error "channel closed"

/-- Witness for C7: one malformed address aborts the whole call, and an
all-parsing list returns true even though every dispatch fails. -/
theorem c7_witness :
    connect c7Parse c7Send ["1.2.3.4:80", "bad"] = none ∧
    (connect c7Parse c7Send ["1.2.3.4:80", "5.6.7.8:90"]).map Prod.fst =
      some true :=
  ⟨(c7_connect c7Parse c7Send ["1.2.3.4:80", "bad"]).1 "bad"
      "invalid socket address" (by decide) (by decide),
   (c7_connect c7Parse c7Send ["1.2.3.4:80", "5.6.7.8:90"]).2 (by decide)⟩

/-- Claim C8 counterexample: a share map whose counts sum to 2 ^ 64 makes the
64-bit accumulation of get_shares wrap to 0, so the call does not return the
sum of the counts. -/
theorem c8_counterexample :
    get_shares [(0, [(0, 2 ^ 64 - 1), (1, 1)])] ≠
      flatShareTotal [(0, [(0, 2 ^ 64 - 1), (1, 1)])] := by
  decide

/-- Claim C8 (amended): get_shares returns the sum of the counts over all
rounds and provers whenever that total fits in a u64; the accumulation is
64-bit machine arithmetic, so an overflowing total wraps instead. -/
theorem c8_total_shares (shares : List (Nat × List (Nat × Nat)))
    (hfits : flatShareTotal shares < 2 ^ 64) :
    get_shares shares = flatShareTotal shares :=
  get_shares_eq_of_fits shares hfits

/-- Witness for the amended C8 theorem on a two-round, two-prover fixture. -/
theorem c8_total_shares_witness :
    get_shares [(1, [(2, 3), (4, 5)]), (2, [(2, 7)])] =
      flatShareTotal [(1, [(2, 3), (4, 5)]), (2, [(2, 7)])] :=
  c8_total_shares [(1, [(2, 3), (4, 5)]), (2, [(2, 7)])] (by decide)

/-- Claim C9: a mempool transaction whose every serial-number and commitment
containment lookup returns an error or false is retained by the mempool
filter — the lookup error is neither surfaced nor treated as a conflict —
and its encoding appears in any template the call produces. -/
theorem c9_error_lookup_included (L : Ledger) (pool : List TransactionM)
    (t : TransactionM) (hmem : t ∈ pool)
    (hs : ∀ sn ∈ t.serialNumbers,
      (∃ e, L.containsSerialNumber sn = .error e) ∨
        L.containsSerialNumber sn = .ok false)
    (hc : ∀ cm ∈ t.commitments,
      (∃ e, L.containsCommitment cm = .error e) ∨
        L.containsCommitment cm = .ok false) :
    t ∈ mempoolInclude L pool ∧
    ∀ N ts tpl, get_block_template N L pool ts = some (.ok tpl) →
      t.str ∈ tpl.transactions := by
  have hadm : specAdmissible L t := by
    constructor
    · intro sn hsn
      rcases hs sn hsn with ⟨e, he⟩ | hf
      · simp [specRecordedSpent, he]
      · simp [specRecordedSpent, hf]
    · intro cm hcm
      rcases hc cm hcm with ⟨e, he⟩ | hf
      · simp [specRecordedOutput, he]
      · simp [specRecordedOutput, hf]
  have hin : t ∈ mempoolInclude L pool := by
    rw [mempoolInclude_eq_specFilter]
    exact List.mem_filter.mpr ⟨hmem, by simp [hadm]⟩
  refine ⟨hin, ?_⟩
  intro N ts tpl h
  obtain ⟨-, -, -, htpl⟩ := get_block_template_ok_inv N L pool ts tpl h
  rw [htpl]
  show t.str ∈ (mempoolInclude L pool).map (·.str)
  exact List.mem_map.mpr ⟨t, hin, rfl⟩

/-- Fixture ledger for C9 whose containment lookups always return errors. -/
def c9Ledger : Ledger :=
  { latestBlock := { header := fixtureTipHeader, hash := 42 }
    latestBlockHeight := 10
    latestLedgerRoot := 9
    getBlockHeader := fun _ => .error "block header not found"
    getBlock := fun _ => .error "block not found"
    getBlockHash := fun _ => .error "block hash not found"
    containsSerialNumber := fun _ => .error "storage failure"
    containsCommitment := fun _ => .error "storage failure" }

def c9Tx : TransactionM :=
  { serialNumbers := [4], commitments := [13], valueBalance := 2, txid := 103, str := "T4" }

/-- Witness for C9: with every lookup failing, the transaction is retained. -/
theorem c9_witness : c9Tx ∈ mempoolInclude c9Ledger [c9Tx] :=
  (c9_error_lookup_included c9Ledger [c9Tx] c9Tx (by decide)
    (fun _ _ => Or.inl ⟨"storage failure", rfl⟩)
    (fun _ _ => Or.inl ⟨"storage failure", rfl⟩)).1

/-- Fixture network for C10 whose retarget function computes a zero
difficulty target. -/
def c10Network : Network :=
  { networkId := 1
    v12UpgradeBlockHeight := 100
    genesisHeader := fixtureGenesisHeader
    retarget := fun _ _ _ => 0
    blockReward := fun _ => 100 }

/-- Claim C10: the cumulative-weight step divides u64::MAX by the computed
difficulty target with no zero guard.  Whenever the computed target is
nonzero, the call does not panic at this step (its outcome is not the panic
value `none`); and the nonzero hypothesis is required for this totality: a
zero computed target makes the call panic. -/
theorem c10_division_totality :
    (∀ (N : Network) (L : Ledger) (pool : List TransactionM) (ts : Int) (dt : Nat),
      difficultyTargetOf N L ts = .ok dt → dt ≠ 0 →
        get_block_template N L pool ts ≠ none) ∧
    get_block_template c10Network fixtureLedger [] 0 = none := by
  constructor
  · intro N L pool ts dt hdt hz
    rw [get_block_template_unfold]
    simp only [hdt]
    rw [if_neg hz]
    by_cases hneg : mempoolFees L pool < 0
    · rw [if_pos hneg]
      simp
    · rw [if_neg hneg]
      simp
  · rfl

/-- Witness for C10: on the shared fixture the computed target is 1 and the
call does not panic. -/
theorem c10_witness :
    get_block_template fixtureNetwork fixtureLedger [] 0 ≠ none :=
  c10_division_totality.1 fixtureNetwork fixtureLedger [] 0 1 (by decide) (by decide)
